import Mathlib

/-!
# Verification of `metadata_cleaning/_dtypes_utils.py`

A shallow embedding of the four pipeline stages of the repository
(`set_column_dtypes`, `get_dtypes_and_unks`, `get_certainly_NaNs`,
`get_dtypes_final`, `rectify_dtypes_in_md`) together with the Python /
pandas primitives they rely on (`str`, `float`, `in`, `Series.unique`,
`DataFrame.replace`, `Series.astype`), followed by theorems about the
stages.

Scalar cell values are modelled by `Value`: a Python `str` or a Python
`float`.  Python floats are modelled exactly by rationals extended with
`nan` and signed infinities (the claims under study never depend on
binary64 rounding, only on parse success / failure and on the textual
forms `"nan"`, `"inf"`).
-/

namespace MetadataCleaning

/-- A Python float: `nan`, a signed infinity, or a finite value
(modelled as an exact rational). -/
inductive PyFloat where
  | nan : PyFloat
  | inf (neg : Bool) : PyFloat
  | fin (q : ℚ) : PyFloat
deriving DecidableEq, Repr

/-- A scalar cell of the metadata table: a Python `str` or a Python
`float` (pandas stores native missing data as the float `nan`). -/
inductive Value where
  | vstr (s : String) : Value
  | vfloat (f : PyFloat) : Value
deriving DecidableEq, Repr

/-- Python `s.strip()` as used by `float()`: surrounding whitespace
removed. -/
def trimChars (l : List Char) : List Char :=
  ((l.dropWhile Char.isWhitespace).reverse.dropWhile Char.isWhitespace).reverse

/-- ASCII lowercasing of a character list (Python `str.lower()` on the
ASCII strings the model covers). -/
def lowerChars (l : List Char) : List Char := l.map Char.toLower

/-- Python `s.lower()`. -/
def strToLower (s : String) : String := String.mk (lowerChars s.toList)

/-- Splitting a character list on every occurrence of a separator. -/
def splitOnCharAux (sep : Char) : List Char → List Char → List (List Char)
  | [], cur => [cur.reverse]
  | c :: rest, cur =>
    if c == sep then cur.reverse :: splitOnCharAux sep rest []
    else splitOnCharAux sep rest (c :: cur)

/-- Splitting a character list on a separator character. -/
def splitOnChar (sep : Char) (l : List Char) : List (List Char) :=
  splitOnCharAux sep l []

/-- Numeric value of a digit run (used by the float-literal parser). -/
def digitsVal (l : List Char) : Nat :=
  l.foldl (fun a c => a * 10 + (c.toNat - 48)) 0

/-- Mantissa of a float literal: digits with at most one `'.'` and at
least one digit (e.g. `"1.5"`, `".5"`, `"2."`, `"10"`). -/
def mantissaOk (l : List Char) : Bool :=
  l.all (fun c => c.isDigit || c == '.') &&
  (l.filter (fun c => c == '.')).length ≤ 1 &&
  l.any (fun c => c.isDigit)

/-- Exponent part of a float literal: optional sign then a nonempty
digit run. -/
def expOk (l : List Char) : Bool :=
  match l with
  | [] => false
  | c :: rest =>
    if c == '+' || c == '-' then !rest.isEmpty && rest.all (fun x => x.isDigit)
    else (c :: rest).all (fun x => x.isDigit)

/-- Does CPython's `float(s)` succeed on the string `s`?  Models the
accepted grammar: surrounding whitespace stripped, optional sign, then
(case-insensitively) `nan` / `inf` / `infinity` or a decimal literal
with optional exponent.  (Unicode digits and `_` separators, which
CPython also accepts, are out of the model's scope.) -/
def pyFloatAccepts (s : String) : Bool :=
  let t := lowerChars (trimChars s.toList)
  let body := match t with
    | c :: rest => if c == '+' || c == '-' then rest else c :: rest
    | [] => []
  if body == "nan".toList || body == "inf".toList || body == "infinity".toList then
    true
  else
    match splitOnChar 'e' body with
    | [m] => mantissaOk m
    | [m, e] => mantissaOk m && expOk e
    | _ => false

/-- Rational value of a mantissa (only meaningful on lists `mantissaOk`
accepts). -/
def mantissaVal (m : List Char) : ℚ :=
  match splitOnChar '.' m with
  | [i] => (digitsVal i : ℚ)
  | [i, f] => (digitsVal i : ℚ) + (digitsVal f : ℚ) / (10 : ℚ) ^ f.length
  | _ => 0

/-- Integer value of an exponent (only meaningful on lists `expOk`
accepts). -/
def expVal (e : List Char) : Int :=
  match e with
  | '+' :: r => (digitsVal r : Int)
  | '-' :: r => -(digitsVal r : Int)
  | r => (digitsVal r : Int)

/-- The float CPython's `float(s)` returns (only meaningful when
`pyFloatAccepts s`). -/
def pyFloatVal (s : String) : PyFloat :=
  let t := lowerChars (trimChars s.toList)
  let neg := match t with
    | c :: _ => c == '-'
    | [] => false
  let body := match t with
    | c :: rest => if c == '+' || c == '-' then rest else c :: rest
    | [] => []
  let sgn : ℚ := if neg then -1 else 1
  if body == "nan".toList then .nan
  else if body == "inf".toList || body == "infinity".toList then .inf neg
  else
    match splitOnChar 'e' body with
    | [m] => .fin (sgn * mantissaVal m)
    | [m, e] => .fin (sgn * mantissaVal m * (10 : ℚ) ^ (expVal e))
    | _ => .fin 0

/-- Decimal digits of the fractional part `x ∈ [0,1)`, `k` places. -/
def fracDigits : ℚ → Nat → String
  | _, 0 => ""
  | x, Nat.succ k =>
    let y := x * 10
    toString (⌊y⌋.toNat % 10) ++ fracDigits (y - ⌊y⌋) k

/-- Textual form of a finite Python float.  Python prints the shortest
round-tripping decimal; we model it as the decimal expansion truncated
at 17 places with trailing zeros stripped (exact on every float the
pipeline itself produces from decimal input).  Its only properties the
stages inspect are equality with `"nan"` (never true: the form always
starts with a digit or `'-'` followed by a digit) and float-parsability. -/
def ratRepr (q : ℚ) : String :=
  let sgn := if q < 0 then "-" else ""
  let a := |q|
  let ip := ⌊a⌋.toNat
  let frac := a - ⌊a⌋
  if frac = 0 then sgn ++ toString ip ++ ".0"
  else
    let ds := fracDigits frac 17
    let ds := String.mk ((ds.toList.reverse.dropWhile (fun c => c == '0')).reverse)
    sgn ++ toString ip ++ "." ++ ds

/-- Python `str(V)`. -/
def pyStr : Value → String
  | .vstr s => s
  | .vfloat .nan => "nan"
  | .vfloat (.inf neg) => if neg then "-inf" else "inf"
  | .vfloat (.fin q) => ratRepr q

/-- Python `float(V)`: `some` result on success, `none` when the call
raises (`ValueError` on an unparseable string — always caught by the
source's bare `except:` clauses). -/
def pyFloatOf : Value → Option PyFloat
  | .vstr s => if pyFloatAccepts s then some (pyFloatVal s) else none
  | .vfloat f => some f

/-- Is `needle` an initial segment of `hay`? -/
def listStarts : List Char → List Char → Bool
  | _, [] => true
  | [], _ :: _ => false
  | c :: cs, d :: ds => c == d && listStarts cs ds

/-- Does the list contain `needle` as a contiguous sublist? -/
def listHasSub (needle : List Char) : List Char → Bool
  | [] => needle.isEmpty
  | c :: rest => listStarts (c :: rest) needle || listHasSub needle rest

/-- Substring containment on Python strings (`needle in hay`). -/
def pyContains (hay needle : String) : Bool :=
  listHasSub needle.toList hay.toList

/-- Exceptions the embedded code can raise. -/
inductive PyError where
  | typeError : PyError
  | valueError : PyError
  | keyError : PyError
  | indexError : PyError
deriving DecidableEq, Repr

/-- Python `needle in V`: substring test on a `str`, `TypeError` on a
float (a float is not iterable). -/
def pyIn (needle : String) (V : Value) : Except PyError Bool :=
  match V with
  | .vstr s => .ok (pyContains s needle)
  | .vfloat _ => .error .typeError

/-- A pandas `DataFrame`: an ordered list of named columns, each an
ordered list of cell values.  (The model is faithful for tables with
distinct column names, the only kind the pipeline receives.) -/
structure Table where
  cols : List (String × List Value)
deriving DecidableEq, Repr

/-- `md_pd.columns.tolist()`. -/
def Table.columns (t : Table) : List String := t.cols.map Prod.fst

/-- `pd.Series.unique()`: distinct values in order of first appearance. -/
def uniqueAux : List Value → List Value → List Value
  | [], acc => acc.reverse
  | v :: rest, acc => if v ∈ acc then uniqueAux rest acc else uniqueAux rest (v :: acc)

/-- `pd_tab[column].unique()`. -/
def uniqueList (l : List Value) : List Value := uniqueAux l []

/-- `str(pd_tab[column].dtypes)`: `"float64"` when every stored value is
a float (and the column is nonempty), otherwise `"object"`. -/
def nativeDtype (vs : List Value) : String :=
  if !vs.isEmpty && vs.all (fun v => match v with | .vfloat _ => true | .vstr _ => false)
  then "float64" else "object"

/-- Python-dict lookup `d[k]` on an insertion-ordered association list
(a Python dict has each key at most once; the model reads the first
occurrence). -/
def dictLookup : List (String × α) → String → Option α
  | [], _ => none
  | p :: rest, k => if p.1 = k then some p.2 else dictLookup rest k

/-- Python-dict assignment `d[k] = v`: update in place when the key
exists, else append the new key at the end (insertion order). -/
def dictSet : List (String × α) → String → α → List (String × α)
  | [], k, v => [(k, v)]
  | p :: rest, k, v => if p.1 = k then (k, v) :: rest else p :: dictSet rest k v

/-- `d[k].append(v)` for a dict of lists.  (The source would raise a
`KeyError` on an absent key; at every call site the key is present, and
the model leaves the dict unchanged in that unreachable case.) -/
def dictAppend : List (String × List α) → String → α → List (String × List α)
  | [], _, _ => []
  | p :: rest, k, v =>
    if p.1 = k then (p.1, p.2 ++ [v]) :: rest else p :: dictAppend rest k v

/-- `d.setdefault(k, []).append(v)`. -/
def setdefaultAppend (d : List (String × List α)) (k : String) (v : α) :
    List (String × List α) :=
  if (dictLookup d k).isSome then dictAppend d k v else d ++ [(k, [v])]

/-- `md_pd[col]`: the column's values, `none` when pandas would raise a
`KeyError`. -/
def Table.getCol? (t : Table) (c : String) : Option (List Value) :=
  dictLookup t.cols c

/-- `md_pd[col] = vs`: replace the values of an existing column (create
the column at the end otherwise — as pandas column assignment does). -/
def Table.setCol (t : Table) (c : String) (vs : List Value) : Table :=
  ⟨dictSet t.cols c vs⟩

/-- `dtypes` / `potential_unks`: insertion-ordered dicts of lists. -/
abbrev Dtypes := List (String × List String)

/-- The identifier-column list actually used: `sampleID_cols` when it is
truthy (a non-`None`, nonempty list), else the default. -/
def effectiveIDs (sampleID_cols : Option (List String)) : List String :=
  match sampleID_cols with
  | some l => if l.isEmpty then ["#SampleID", "sample_name"] else l
  | none => ["#SampleID", "sample_name"]

/-- The `float_to_string` 4-slot list of `get_dtypes_and_unks`:
`[0]` counts values whose string form is `'nan'`, `[1]` counts values
parsing as float, `[2]` counts values failing the float parse, `[3]`
collects those failing values. -/
structure FloatToString where
  nanCount : Nat
  floatCount : Nat
  nonFloatCount : Nat
  nonFloats : List Value
deriving DecidableEq, Repr

/-- `set_column_dtypes(dtypes, column, float_to_string)` (source lines
14–31): append the preliminary tag inferred from the scan counters to
`dtypes[column]`. -/
def set_column_dtypes (dtypes : Dtypes) (column : String)
    (float_to_string : FloatToString) : Dtypes :=
  if float_to_string.nonFloatCount = 0 then
    dictAppend dtypes column "float64"
  else if float_to_string.nonFloatCount ≠ 0 then
    if float_to_string.floatCount ≠ 0 ∨ float_to_string.nanCount ≠ 0 then
      dictAppend dtypes column "check"
    else
      dictAppend dtypes column "object"
  else dtypes

/-- Candidate registration guard of source line 101:
`len(v) < 20 and '/' not in v and '-' not in v and
not len([x for x in str(v) if x.isdigit()])`. -/
def lexicalUnkOk (v : String) : Bool :=
  v.length < 20 && !v.toList.contains '/' && !v.toList.contains '-' &&
  !v.toList.any (fun c => c.isDigit)

/-- Mutable state of the inner value loop of `get_dtypes_and_unks`. -/
structure ScanState where
  fts : FloatToString
  potential_unks : Dtypes
  nan_diversity : Finset Value
deriving DecidableEq

/-- Diagnostic-set stage of the value loop (source lines 88–90): when
the lowercase string form hits the pattern, test `':Unspecified' not in
V` (which raises a `TypeError` on a non-string `V`) and record `V` into
`nan_diversity`. -/
def scanDiversity (regexUnk : String → Bool) (st : ScanState) (V : Value) :
    Except PyError ScanState :=
  if regexUnk (strToLower (pyStr V)) then
    (pyIn ":Unspecified" V).map (fun hasUnspec =>
      if !hasUnspec then { st with nan_diversity := insert V st.nan_diversity }
      else st)
  else .ok st

/-- Counting / candidate-registration stage of the value loop (source
lines 91–102). -/
def scanParse (column : String) (st : ScanState) (V : Value) : ScanState :=
  let v := strToLower (pyStr V)
  if pyStr V = "nan" then
    { st with fts := { st.fts with nanCount := st.fts.nanCount + 1 } }
  else
    match pyFloatOf V with
    | some _ =>
      { st with fts := { st.fts with floatCount := st.fts.floatCount + 1 } }
    | none =>
      { st with
        fts := { st.fts with
          nonFloatCount := st.fts.nonFloatCount + 1,
          nonFloats := st.fts.nonFloats ++ [V] },
        potential_unks :=
          if lexicalUnkOk v then setdefaultAppend st.potential_unks v column
          else st.potential_unks }

/-- One iteration of the value loop of `get_dtypes_and_unks` (source
lines 86–102) on the distinct value `V`. -/
def scanValue (regexUnk : String → Bool) (column : String) (st : ScanState)
    (V : Value) : Except PyError ScanState := do
  let st ← scanDiversity regexUnk st V
  .ok (scanParse column st V)

/-- Accumulated outputs of the column loop of `get_dtypes_and_unks`. -/
structure ScanAcc where
  dtypes : Dtypes
  potential_unks : Dtypes
  nan_diversity : Finset Value
deriving DecidableEq

/-- One iteration of the column loop of `get_dtypes_and_unks` (source
lines 73–103). -/
def scanColumn (regexUnk : String → Bool) (sampleIDs : List String)
    (acc : ScanAcc) (col : String) (vals : List Value) :
    Except PyError ScanAcc :=
  let dtypes := dictSet acc.dtypes col [nativeDtype vals]
  if col ∈ sampleIDs then
    .ok { acc with dtypes := dictAppend dtypes col "object" }
  else do
    let st ← (uniqueList vals).foldlM (scanValue regexUnk col)
      ⟨⟨0, 0, 0, []⟩, acc.potential_unks, acc.nan_diversity⟩
    .ok ⟨set_column_dtypes dtypes col st.fts, st.potential_unks, st.nan_diversity⟩

/-- `get_dtypes_and_unks(pd_tab, regex_unk, sampleID_cols)` (source
lines 34–104).  The caller-supplied pattern is modelled as the opaque
predicate `re.search(regex_unk, ·)` over lowercased strings. -/
def get_dtypes_and_unks (pd_tab : Table) (regexUnk : String → Bool)
    (sampleID_cols : Option (List String) := none) :
    Except PyError (Dtypes × Dtypes × Finset Value) := do
  let sampleIDs := effectiveIDs sampleID_cols
  let acc ← pd_tab.cols.foldlM
    (fun a p => scanColumn regexUnk sampleIDs a p.1 p.2)
    ⟨[], [], ∅⟩
  .ok (acc.dtypes, acc.potential_unks, acc.nan_diversity)

/-- The binary incidence frame built by `get_certainly_NaNs`: rows
indexed by the table's column names, one frame column per candidate
factor. -/
structure BinDF where
  index : List String
  cols : List String
  rows : List (List Nat)
deriving DecidableEq, Repr

/-- Lexicographic order on character lists by code point (Python string
comparison). -/
def charListLe : List Char → List Char → Bool
  | [], _ => true
  | _ :: _, [] => false
  | c :: cs, d :: ds =>
    if c.toNat < d.toNat then true
    else if d.toNat < c.toNat then false
    else charListLe cs ds

/-- Python `a <= b` on strings. -/
def strLe (a b : String) : Bool := charListLe a.toList b.toList

/-- Stable insertion of an entry into a key-sorted association list. -/
def insertSorted (x : String × List String) : Dtypes → Dtypes
  | [] => [x]
  | y :: ys => if strLe x.1 y.1 then x :: y :: ys else y :: insertSorted x ys

/-- `sorted(potential_unks.items())`: Python sorts the `(key, value)`
pairs; dict keys are distinct, so the order is the lexicographic order
of the keys (modelled by a stable insertion sort). -/
def sortedItems (d : Dtypes) : Dtypes := d.foldr insertSorted []

/-- `get_certainly_NaNs(potential_unks, md_pd, thresh)` (source lines
107–149): encode each table column as a 0/1 row over the sorted
candidate factors (`1` iff the column is in the factor's contributing
list), sum each factor's column of 1s, and keep the factors whose sum
strictly exceeds `thresh` (`df.loc[:, sumCols > thresh]`). -/
def get_certainly_NaNs (potential_unks : Dtypes) (md_pd : Table)
    (thresh : Nat := 10) : BinDF :=
  let items := sortedItems potential_unks
  let rowsL := md_pd.columns.map
    (fun col => items.map (fun p => if col ∈ p.2 then 1 else 0))
  let keep := (List.range items.length).filter
    (fun j => thresh < (rowsL.map (fun r => r.getD j 0)).sum)
  ⟨md_pd.columns,
   keep.map (fun j => (items.getD j ("", [])).1),
   rowsL.map (fun r => keep.map (fun j => r.getD j 0))⟩

/-- Replacement of a single cell value under a `{old: new}` mapping
(exact match, as pandas `replace` does by default). -/
def applyMapping (mapping : List (Value × Value)) (v : Value) : Value :=
  match mapping.find? (fun q => q.1 = v) with
  | some q => q.2
  | none => v

/-- `md_pd.replace({col: mapping})`: exact-match replacement of cell
values inside the one named column; other columns (and an absent `col`)
are untouched. -/
def replaceCol (t : Table) (col : String) (mapping : List (Value × Value)) :
    Table :=
  ⟨t.cols.map (fun p =>
    if p.1 = col then (p.1, p.2.map (applyMapping mapping))
    else p)⟩

/-- Re-scan of source lines 189–199: does some distinct value of the
(already substituted) column, other than those printing as `'nan'`, fail
the float parse?  The source loop breaks on the first failure; `any`
short-circuits identically. -/
def rescanNonFloat (vs : List Value) : Bool :=
  (uniqueList vs).any (fun v => pyStr v ≠ "nan" && (pyFloatOf v).isNone)

/-- Body of one iteration of the column loop of `get_dtypes_final`
(source lines 182–205), on the current `dtypes`, `dtypes_final` and
table and the entry `(col, checks)`. -/
def finalStepCore (sampleIDs : List String) (to_nan : List (Value × Value))
    (dtypes : Dtypes) (dtypes_final : List (String × String)) (md_pd : Table)
    (col : String) (checks : List String) :
    Except PyError (Dtypes × List (String × String) × Table) :=
  if col ∈ sampleIDs then
    .ok (dictAppend dtypes col "object", dictSet dtypes_final col "O", md_pd)
  else
    match checks.getLast? with
    | none => .error .indexError
    | some last =>
      if last = "check" ∨ last = "object" then
        let md_pd := replaceCol md_pd col to_nan
        match md_pd.getCol? col with
        | none => .error .keyError
        | some vs =>
          if rescanNonFloat vs then
            .ok (dictAppend dtypes col "object", dictSet dtypes_final col "O", md_pd)
          else
            .ok (dictAppend dtypes col "float64", dictSet dtypes_final col "Q", md_pd)
      else
        .ok (dictAppend dtypes col last, dictSet dtypes_final col "Q", md_pd)

/-- One iteration of the column loop of `get_dtypes_final`, threading
the mutated `dtypes`, the growing `dtypes_final` and the table being
substituted into. -/
def finalStep (sampleIDs : List String) (to_nan : List (Value × Value))
    (acc : Dtypes × List (String × String) × Table)
    (entry : String × List String) :
    Except PyError (Dtypes × List (String × String) × Table) :=
  finalStepCore sampleIDs to_nan acc.1 acc.2.1 acc.2.2 entry.1 entry.2

/-- `get_dtypes_final(dtypes, md_pd, sampleID_cols)` (source lines
152–206).  Modelled from the spec: the substitution mapping `to_nan`
(candidate string → canonical missing marker) is a free name in the
source file, supplied externally per the spec ("the core receives this
mapping as an input and applies it"); it is made an explicit argument
here.  Returns the finalized-type map and the substituted table. -/
def get_dtypes_final (dtypes : Dtypes) (md_pd : Table)
    (sampleID_cols : Option (List String)) (to_nan : List (Value × Value)) :
    Except PyError (List (String × String) × Table) := do
  let sampleIDs := effectiveIDs sampleID_cols
  let (_, dtypes_final, md_pd) ← dtypes.foldlM (finalStep sampleIDs to_nan)
    (dtypes, [], md_pd)
  .ok (dtypes_final, md_pd)

/-- `series.astype('float64')`: convert every cell with `float(V)`;
an unparseable cell raises a `ValueError`. -/
def astypeFloat : List Value → Except PyError (List Value)
  | [] => .ok []
  | v :: rest =>
    match pyFloatOf v with
    | some f => (astypeFloat rest).map (fun ws => Value.vfloat f :: ws)
    | none => .error PyError.valueError

/-- `series.astype('str')`: convert every cell with `str(V)`. -/
def astypeStr (vs : List Value) : List Value :=
  vs.map (fun v => Value.vstr (pyStr v))

/-- One iteration of the loop of `rectify_dtypes_in_md` (source lines
230–237).  When `col` is absent from the table, the right-hand side
`md_pd[col]` of the fallback assignment raises a `KeyError`. -/
def rectifyStep (md_pd : Table) (entry : String × String) :
    Except PyError Table :=
  let (col, dtype) := entry
  match md_pd.getCol? col with
  | some vs =>
    if dtype = "Q" then (astypeFloat vs).map (md_pd.setCol col)
    else .ok (md_pd.setCol col (astypeStr vs))
  | none => .error .keyError

/-- `rectify_dtypes_in_md(dtypes_final, md_pd)` (source lines 209–238). -/
def rectify_dtypes_in_md (dtypes_final : List (String × String))
    (md_pd : Table) : Except PyError Table :=
  dtypes_final.foldlM rectifyStep md_pd

/-! ## Association-list (Python dict) lemmas -/

theorem dictLookup_dictAppend_self (d : List (String × List α)) (k : String)
    (v : α) :
    dictLookup (dictAppend d k v) k = (dictLookup d k).map (fun l => l ++ [v]) := by
  induction d with
  | nil => rfl
  | cons p rest ih =>
    by_cases hp : p.1 = k
    · simp [dictAppend, dictLookup, hp]
    · simpa [dictAppend, dictLookup, hp] using ih

theorem dictLookup_dictAppend_ne (d : List (String × List α)) (k k' : String)
    (v : α) (h : k' ≠ k) :
    dictLookup (dictAppend d k v) k' = dictLookup d k' := by
  induction d with
  | nil => rfl
  | cons p rest ih =>
    by_cases hp : p.1 = k
    · simp [dictAppend, dictLookup, hp, Ne.symm h]
    · by_cases hq : p.1 = k'
      · simp [dictAppend, dictLookup, hp, hq, h]
      · simpa [dictAppend, dictLookup, hp, hq] using ih

theorem dictLookup_dictSet_self (d : List (String × α)) (k : String) (v : α) :
    dictLookup (dictSet d k v) k = some v := by
  induction d with
  | nil => simp [dictSet, dictLookup]
  | cons p rest ih =>
    by_cases hp : p.1 = k
    · simp [dictSet, dictLookup, hp]
    · simpa [dictSet, dictLookup, hp] using ih

theorem dictLookup_dictSet_ne (d : List (String × α)) (k k' : String) (v : α)
    (h : k' ≠ k) :
    dictLookup (dictSet d k v) k' = dictLookup d k' := by
  induction d with
  | nil => simp [dictSet, dictLookup, Ne.symm h]
  | cons p rest ih =>
    by_cases hp : p.1 = k
    · have hp' : ¬ (p.1 = k') := fun e => Ne.symm h (hp.symm.trans e)
      simp [dictSet, dictLookup, hp, hp', Ne.symm h]
    · by_cases hq : p.1 = k'
      · simp [dictSet, dictLookup, hp, hq, h]
      · simpa [dictSet, dictLookup, hp, hq] using ih

/-! ## Scanner stage lemmas -/

theorem scanDiversity_ok (rex : String → Bool) (st st1 : ScanState) (V : Value)
    (h : scanDiversity rex st V = .ok st1) :
    st1.fts = st.fts ∧ st1.potential_unks = st.potential_unks := by
  unfold scanDiversity at h
  split at h
  · cases V with
    | vstr s =>
      simp only [pyIn, Except.map] at h
      split at h <;> { cases h; exact ⟨rfl, rfl⟩ }
    | vfloat f => simp [pyIn, Except.map] at h
  · cases h; exact ⟨rfl, rfl⟩

theorem scanParse_unks (column : String) (st : ScanState) (V : Value) :
    (scanParse column st V).potential_unks =
      if (pyFloatOf V).isNone ∧ lexicalUnkOk (strToLower (pyStr V)) then
        setdefaultAppend st.potential_unks (strToLower (pyStr V)) column
      else st.potential_unks := by
  unfold scanParse
  by_cases hn : pyStr V = "nan"
  · have hsome : (pyFloatOf V).isNone = false := by
      cases V with
      | vstr s =>
        simp only [pyStr] at hn
        subst hn
        decide
      | vfloat f => simp [pyFloatOf]
    simp [hn, hsome]
  · cases hf : pyFloatOf V with
    | some f => simp [hn, hf]
    | none =>
      by_cases hl : lexicalUnkOk (strToLower (pyStr V)) <;> simp [hn, hf, hl]

/-- C1: for a non-identifier column, the preliminary tag appended after
the value scan is `float64` when the contains-non-float counter is
zero, `check` when it is nonzero and the contains-float or the
contains-missing counter is nonzero, and `object` otherwise. -/
theorem C1_preliminary_classification (d : Dtypes) (c : String)
    (fts : FloatToString) (l : List String) (h : dictLookup d c = some l) :
    dictLookup (set_column_dtypes d c fts) c =
      some (l ++ [if fts.nonFloatCount = 0 then "float64"
        else if fts.floatCount ≠ 0 ∨ fts.nanCount ≠ 0 then "check"
        else "object"]) := by
  unfold set_column_dtypes
  by_cases h0 : fts.nonFloatCount = 0
  · simp [h0, dictLookup_dictAppend_self, h]
  · by_cases h1 : fts.floatCount ≠ 0 ∨ fts.nanCount ≠ 0
    · simp [h0, h1, dictLookup_dictAppend_self, h]
    · simp [h0, h1, dictLookup_dictAppend_self, h]

theorem C1_preliminary_classification_witness :
    dictLookup [("c", ["object"])] "c" = some ["object"] ∧
    dictLookup (set_column_dtypes [("c", ["object"])] "c" ⟨0, 2, 0, []⟩) "c" =
      some (["object"] ++
        [if (⟨0, 2, 0, []⟩ : FloatToString).nonFloatCount = 0 then "float64"
         else if (⟨0, 2, 0, []⟩ : FloatToString).floatCount ≠ 0 ∨
             (⟨0, 2, 0, []⟩ : FloatToString).nanCount ≠ 0 then "check"
         else "object"]) :=
  ⟨by decide, C1_preliminary_classification _ "c" _ _ (by decide)⟩

/-- C6 counterexample: with one non-float and no float, the
contains-missing counter alone flips the preliminary tag from `object`
to `check`, so the counter does affect the classification. -/
theorem C6_missing_counter_counterexample :
    dictLookup (set_column_dtypes [("c", ["object"])] "c" ⟨1, 0, 1, []⟩) "c" =
      some ["object", "check"] ∧
    dictLookup (set_column_dtypes [("c", ["object"])] "c" ⟨0, 0, 1, []⟩) "c" =
      some ["object", "object"] ∧
    set_column_dtypes [("c", ["object"])] "c" ⟨1, 0, 1, []⟩ ≠
      set_column_dtypes [("c", ["object"])] "c" ⟨0, 0, 1, []⟩ := by
  decide

/-- C6 (amended): the contains-missing counter leaves the preliminary
tag unchanged whenever the contains-non-float counter is zero or the
contains-float counter is nonzero; in the remaining case (some
non-float, no float) a nonzero contains-missing counter yields `check`
where a zero one yields `object`. -/
theorem C6_missing_counter_amended (d : Dtypes) (c : String)
    (fts : FloatToString) (a : Nat) :
    (fts.nonFloatCount = 0 ∨ fts.floatCount ≠ 0 →
      set_column_dtypes d c { fts with nanCount := a } =
        set_column_dtypes d c fts) ∧
    (fts.nonFloatCount ≠ 0 → fts.floatCount = 0 →
      set_column_dtypes d c fts =
        dictAppend d c (if fts.nanCount ≠ 0 then "check" else "object")) := by
  constructor
  · rintro (h0 | h1)
    · simp [set_column_dtypes, h0]
    · by_cases h0 : fts.nonFloatCount = 0 <;>
        simp [set_column_dtypes, h0, h1]
  · intro h0 h1
    by_cases hn : fts.nanCount ≠ 0 <;>
      simp [set_column_dtypes, h0, h1, hn]

theorem C6_missing_counter_amended_witness :
    ((2 : Nat) = 0 ∨ (3 : Nat) ≠ 0 ∧ True) ∧
    set_column_dtypes [("c", ["object"])] "c"
        { nanCount := 7, floatCount := 3, nonFloatCount := 2, nonFloats := [] } =
      set_column_dtypes [("c", ["object"])] "c" ⟨0, 3, 2, []⟩ ∧
    set_column_dtypes [("c", ["object"])] "c" ⟨1, 0, 1, []⟩ =
      dictAppend [("c", ["object"])] "c"
        (if (⟨1, 0, 1, []⟩ : FloatToString).nanCount ≠ 0 then "check" else "object") :=
  ⟨by decide,
   (C6_missing_counter_amended [("c", ["object"])] "c" ⟨0, 3, 2, []⟩ 7).1
     (Or.inr (by decide)),
   (C6_missing_counter_amended [("c", ["object"])] "c" ⟨1, 0, 1, []⟩ 1).2
     (by decide) (by decide)⟩

theorem scanDiversity_vstr (rex : String → Bool) (st : ScanState) (s : String) :
    scanDiversity rex st (.vstr s) =
      .ok (if rex (strToLower s) && !(pyContains s ":Unspecified") then
        { st with nan_diversity := insert (Value.vstr s) st.nan_diversity }
      else st) := by
  unfold scanDiversity
  rw [show pyStr (Value.vstr s) = s from rfl]
  by_cases h : rex (strToLower s)
  · rw [h]
    rfl
  · have h' : rex (strToLower s) = false := by simpa using h
    rw [h']
    rfl

theorem scanValue_vstr (rex : String → Bool) (col : String) (st : ScanState)
    (s : String) :
    scanValue rex col st (.vstr s) =
      .ok (scanParse col
        (if rex (strToLower s) && !(pyContains s ":Unspecified") then
          { st with nan_diversity := insert (Value.vstr s) st.nan_diversity }
        else st) (.vstr s)) := by
  unfold scanValue
  rw [scanDiversity_vstr]
  rfl

/-- C9: the native-missing test is a case-sensitive exact match against
`'nan'`: a value printing exactly as `"nan"` only bumps the
contains-missing counter (leaving the candidate-unknowns map and the
non-float list untouched), while `"NaN"` and `"NAN"` pass the float
parse and bump the contains-float counter instead. -/
theorem C9_nan_match_case_sensitive (rex : String → Bool) (col : String)
    (st : ScanState) :
    scanValue rex col st (.vstr "nan") = .ok { st with
      fts := { st.fts with nanCount := st.fts.nanCount + 1 },
      nan_diversity := if rex "nan" then insert (Value.vstr "nan") st.nan_diversity
        else st.nan_diversity } ∧
    scanValue rex col st (.vstr "NaN") = .ok { st with
      fts := { st.fts with floatCount := st.fts.floatCount + 1 },
      nan_diversity := if rex "nan" then insert (Value.vstr "NaN") st.nan_diversity
        else st.nan_diversity } ∧
    scanValue rex col st (.vstr "NAN") = .ok { st with
      fts := { st.fts with floatCount := st.fts.floatCount + 1 },
      nan_diversity := if rex "nan" then insert (Value.vstr "NAN") st.nan_diversity
        else st.nan_diversity } := by
  refine ⟨?_, ?_, ?_⟩
  · rw [scanValue_vstr, show strToLower "nan" = "nan" from rfl]
    by_cases h : rex "nan"
    · rw [h]; rfl
    · have h' : rex "nan" = false := by simpa using h
      rw [h']; rfl
  · rw [scanValue_vstr, show strToLower "NaN" = "nan" from rfl]
    by_cases h : rex "nan"
    · rw [h]; rfl
    · have h' : rex "nan" = false := by simpa using h
      rw [h']; rfl
  · rw [scanValue_vstr, show strToLower "NAN" = "nan" from rfl]
    by_cases h : rex "nan"
    · rw [h]; rfl
    · have h' : rex "nan" = false := by simpa using h
      rw [h']; rfl

/-- C10: the Scanner can raise instead of returning: on a non-identifier
column holding a non-string scalar (here the float `nan`) whose
lowercase string form hits the caller-supplied pattern, the
`':Unspecified' not in V` test is applied to the raw float and raises a
`TypeError` — shown both for a single scan step and for a whole
`get_dtypes_and_unks` run. -/
theorem C10_typeerror_on_float_hit (rex : String → Bool) (col : String)
    (st : ScanState) (f : PyFloat)
    (h : rex (strToLower (pyStr (Value.vfloat f))) = true) :
    scanValue rex col st (Value.vfloat f) = .error .typeError ∧
    get_dtypes_and_unks ⟨[("col1", [Value.vfloat .nan])]⟩ (fun _ => true) none =
      .error .typeError := by
  constructor
  · unfold scanValue scanDiversity
    rw [h]
    rfl
  · rfl

theorem C10_typeerror_on_float_hit_witness :
    ((fun _ => true : String → Bool)
        (strToLower (pyStr (Value.vfloat .nan))) = true) ∧
    scanValue (fun _ => true) "c" ⟨⟨0, 0, 0, []⟩, [], ∅⟩ (Value.vfloat .nan) =
      .error .typeError :=
  ⟨rfl, (C10_typeerror_on_float_hit (fun _ => true) "c" ⟨⟨0, 0, 0, []⟩, [], ∅⟩
    .nan rfl).1⟩

/-- C7: a distinct value is registered into the candidate-unknowns map
(its lowercase string form mapped to the column, appended via
setdefault) exactly when it fails the float parse and its lowercase
form is shorter than 20 characters with no `'/'`, no `'-'` and no
digit; otherwise the map is unchanged. -/
theorem C7_candidate_registration (rex : String → Bool) (col : String)
    (st st' : ScanState) (V : Value)
    (h : scanValue rex col st V = .ok st') :
    st'.potential_unks =
      if (pyFloatOf V).isNone ∧ lexicalUnkOk (strToLower (pyStr V)) then
        setdefaultAppend st.potential_unks (strToLower (pyStr V)) col
      else st.potential_unks := by
  unfold scanValue at h
  cases hd : scanDiversity rex st V with
  | error e =>
    rw [hd] at h
    exact (Except.noConfusion (h : Except.error e = Except.ok st'))
  | ok st1 =>
    rw [hd] at h
    have h2 : Except.ok (scanParse col st1 V) = Except.ok st' := h
    injection h2 with h3
    have hp := scanDiversity_ok rex st st1 V hd
    rw [← h3, scanParse_unks, hp.2]

theorem C7_candidate_registration_witness :
    scanValue (fun _ => false) "c" ⟨⟨0, 0, 0, []⟩, [], ∅⟩ (.vstr "unk") =
      .ok ⟨⟨0, 0, 1, [.vstr "unk"]⟩, [("unk", ["c"])], ∅⟩ ∧
    (⟨⟨0, 0, 1, [.vstr "unk"]⟩, [("unk", ["c"])], ∅⟩ : ScanState).potential_unks =
      if (pyFloatOf (.vstr "unk")).isNone ∧
          lexicalUnkOk (strToLower (pyStr (.vstr "unk"))) then
        setdefaultAppend (⟨⟨0, 0, 0, []⟩, [], ∅⟩ : ScanState).potential_unks
          (strToLower (pyStr (.vstr "unk"))) "c"
      else (⟨⟨0, 0, 0, []⟩, [], ∅⟩ : ScanState).potential_unks :=
  ⟨rfl, C7_candidate_registration (fun _ => false) "c" ⟨⟨0, 0, 0, []⟩, [], ∅⟩
    ⟨⟨0, 0, 1, [.vstr "unk"]⟩, [("unk", ["c"])], ∅⟩ (.vstr "unk") rfl⟩

/-! ## Generic helpers: lookup of absent keys, Except-valued folds -/

theorem dictLookup_eq_none (d : List (String × α)) (k : String)
    (h : k ∉ d.map Prod.fst) : dictLookup d k = none := by
  induction d with
  | nil => rfl
  | cons p rest ih =>
    simp only [List.map_cons, List.mem_cons] at h
    push_neg at h
    have hp : ¬ (p.1 = k) := fun e => h.1 e.symm
    simp [dictLookup, hp, ih h.2]

theorem dictLookup_mem_of_some (d : List (String × α)) (k : String) (v : α)
    (h : dictLookup d k = some v) : k ∈ d.map Prod.fst := by
  induction d with
  | nil => simp [dictLookup] at h
  | cons p rest ih =>
    by_cases hp : p.1 = k
    · simp [hp]
    · simp only [dictLookup, hp, if_false] at h
      simp [ih h]

theorem exceptBind_ok_iff {ε α β : Type} (m : Except ε α) (k : α → Except ε β)
    (r : β) : (m >>= k) = .ok r ↔ ∃ a, m = .ok a ∧ k a = .ok r := by
  cases m with
  | ok a => simp [Bind.bind, Except.bind]
  | error e => simp [Bind.bind, Except.bind]

theorem foldlM_cons_ok {ε α β : Type} {f : β → α → Except ε β} {a : β} {x : α}
    {L : List α} {r : β} (h : List.foldlM f a (x :: L) = .ok r) :
    ∃ a1, f a x = .ok a1 ∧ List.foldlM f a1 L = .ok r := by
  rw [List.foldlM_cons] at h
  exact (exceptBind_ok_iff _ _ _).mp h

/-- C4 counterexample: a finalized-type map naming the absent column
`"x"` makes the Rewriter raise a `KeyError` instead of creating the
column. -/
theorem C4_rewriter_missing_column_counterexample :
    rectify_dtypes_in_md [("x", "O")] ⟨[("a", [Value.vstr "p"])]⟩ =
      .error .keyError ∧
    "x" ∉ (⟨[("a", [Value.vstr "p"])]⟩ : Table).columns :=
  ⟨rfl, by decide⟩

/-- C4 (amended): when the Rewriter reaches a map entry whose column is
absent from the table, it fails with a `KeyError` (raised by the
`md_pd[col]` read on the right-hand side of the fallback assignment);
no column is created. -/
theorem rectifyStep_eq (t : Table) (col d : String) :
    rectifyStep t (col, d) =
      match t.getCol? col with
      | some vs =>
        if d = "Q" then Except.map (t.setCol col) (astypeFloat vs)
        else Except.ok (t.setCol col (astypeStr vs))
      | none => Except.error PyError.keyError := rfl

theorem C4_rewriter_missing_column_amended (t : Table) (col d : String)
    (rest : List (String × String)) (h : col ∉ t.columns) :
    rectify_dtypes_in_md ((col, d) :: rest) t = .error .keyError := by
  have hn : t.getCol? col = none := dictLookup_eq_none _ _ h
  unfold rectify_dtypes_in_md
  rw [List.foldlM_cons, rectifyStep_eq, hn]
  rfl

theorem C4_rewriter_missing_column_amended_witness :
    ("x" ∉ (⟨[("a", [Value.vstr "p"])]⟩ : Table).columns) ∧
    rectify_dtypes_in_md [("x", "Q")] ⟨[("a", [Value.vstr "p"])]⟩ =
      .error .keyError :=
  ⟨by decide,
   C4_rewriter_missing_column_amended ⟨[("a", [Value.vstr "p"])]⟩ "x" "Q" []
     (by decide)⟩

/-! ## Finalizer lemmas -/

theorem dictLookup_map_replace (l : List (String × List Value)) (c col : String)
    (g : List Value → List Value) (h : c ≠ col) :
    dictLookup (l.map fun p => if p.1 = c then (p.1, g p.2) else p) col =
      dictLookup l col := by
  induction l with
  | nil => rfl
  | cons p rest ih =>
    by_cases hp : p.1 = c
    · simp [dictLookup, hp, h, ih]
    · by_cases hq : p.1 = col
      · simp [dictLookup, hp, hq, Ne.symm h]
      · simp [dictLookup, hp, hq, ih]

theorem dictLookup_map_replace_self (l : List (String × List Value)) (c : String)
    (g : List Value → List Value) (vs : List Value)
    (h : dictLookup l c = some vs) :
    dictLookup (l.map fun p => if p.1 = c then (p.1, g p.2) else p) c =
      some (g vs) := by
  induction l with
  | nil => simp [dictLookup] at h
  | cons p rest ih =>
    by_cases hp : p.1 = c
    · simp only [dictLookup, hp, if_true] at h
      cases h
      simp [dictLookup, hp]
    · simp only [dictLookup, hp, if_false] at h
      simp [dictLookup, hp, ih h]

theorem replaceCol_getCol_ne (t : Table) (c col : String)
    (mp : List (Value × Value)) (h : c ≠ col) :
    (replaceCol t c mp).getCol? col = t.getCol? col := by
  cases t with
  | mk l => exact dictLookup_map_replace l c col _ h

theorem replaceCol_getCol_self (t : Table) (c : String)
    (mp : List (Value × Value)) (vs : List Value) (h : t.getCol? c = some vs) :
    (replaceCol t c mp).getCol? c = some (vs.map (applyMapping mp)) := by
  cases t with
  | mk l => exact dictLookup_map_replace_self l c _ vs h

theorem finalStep_id (ids : List String) (to_nan : List (Value × Value))
    (d : Dtypes) (f : List (String × String)) (m : Table) (col : String)
    (checks : List String) (h : col ∈ ids) :
    finalStep ids to_nan (d, f, m) (col, checks) =
      .ok (dictAppend d col "object", dictSet f col "O", m) := by
  show finalStepCore ids to_nan d f m col checks = _
  unfold finalStepCore
  rw [if_pos h]

theorem finalStep_check (ids : List String) (to_nan : List (Value × Value))
    (d : Dtypes) (f : List (String × String)) (m : Table) (col : String)
    (checks : List String) (last : String) (vs : List Value)
    (h1 : col ∉ ids) (h2 : checks.getLast? = some last)
    (h3 : last = "check" ∨ last = "object")
    (h4 : m.getCol? col = some vs) :
    finalStep ids to_nan (d, f, m) (col, checks) =
      .ok (dictAppend d col
             (if rescanNonFloat (vs.map (applyMapping to_nan)) then "object"
              else "float64"),
           dictSet f col
             (if rescanNonFloat (vs.map (applyMapping to_nan)) then "O" else "Q"),
           replaceCol m col to_nan) := by
  have h5 : (replaceCol m col to_nan).getCol? col =
      some (vs.map (applyMapping to_nan)) :=
    replaceCol_getCol_self m col to_nan vs h4
  show finalStepCore ids to_nan d f m col checks = _
  unfold finalStepCore
  rw [if_neg h1, h2]
  show (if last = "check" ∨ last = "object" then _ else _) = _
  rw [if_pos h3]
  simp only [h5]
  by_cases hb : rescanNonFloat (vs.map (applyMapping to_nan)) <;> simp [hb]

theorem finalStep_ne_ok (ids : List String) (to_nan : List (Value × Value))
    (d : Dtypes) (f : List (String × String)) (m : Table)
    (d' : Dtypes) (f' : List (String × String)) (m' : Table)
    (c : String) (checks : List String) (col : String) (hc : c ≠ col)
    (h : finalStep ids to_nan (d, f, m) (c, checks) = .ok (d', f', m')) :
    dictLookup f' col = dictLookup f col ∧ m'.getCol? col = m.getCol? col := by
  have hcol' : ¬ ((col : String) = c) := fun e => hc e.symm
  replace h : finalStepCore ids to_nan d f m c checks = .ok (d', f', m') := h
  unfold finalStepCore at h
  by_cases hid : c ∈ ids
  · rw [if_pos hid] at h
    injection h with h
    rw [Prod.mk.injEq, Prod.mk.injEq] at h
    obtain ⟨-, h2, h3⟩ := h
    rw [← h2, ← h3]
    exact ⟨dictLookup_dictSet_ne f c col "O" (fun e => hc e.symm), rfl⟩
  · rw [if_neg hid] at h
    cases hlast : checks.getLast? with
    | none =>
      simp only [hlast] at h
      exact Except.noConfusion h
    | some last =>
      simp only [hlast] at h
      by_cases hco : last = "check" ∨ last = "object"
      · rw [if_pos hco] at h
        cases hcol : (replaceCol m c to_nan).getCol? c with
        | none =>
          simp only [hcol] at h
          exact Except.noConfusion h
        | some ws =>
          simp only [hcol] at h
          by_cases hb : rescanNonFloat ws
          · rw [if_pos hb] at h
            injection h with h
            rw [Prod.mk.injEq, Prod.mk.injEq] at h
            obtain ⟨-, h2, h3⟩ := h
            rw [← h2, ← h3]
            exact ⟨dictLookup_dictSet_ne f c col "O" (fun e => hc e.symm),
              replaceCol_getCol_ne m c col to_nan hc⟩
          · rw [if_neg hb] at h
            injection h with h
            rw [Prod.mk.injEq, Prod.mk.injEq] at h
            obtain ⟨-, h2, h3⟩ := h
            rw [← h2, ← h3]
            exact ⟨dictLookup_dictSet_ne f c col "Q" (fun e => hc e.symm),
              replaceCol_getCol_ne m c col to_nan hc⟩
      · rw [if_neg hco] at h
        injection h with h
        rw [Prod.mk.injEq, Prod.mk.injEq] at h
        obtain ⟨-, h2, h3⟩ := h
        rw [← h2, ← h3]
        exact ⟨dictLookup_dictSet_ne f c col "Q" (fun e => hc e.symm), rfl⟩

theorem final_fold_preserve (ids : List String) (to_nan : List (Value × Value))
    (col : String) :
    ∀ (L : Dtypes) (d : Dtypes) (f : List (String × String)) (m : Table)
      (d' : Dtypes) (f' : List (String × String)) (m' : Table),
      col ∉ L.map Prod.fst →
      List.foldlM (finalStep ids to_nan) (d, f, m) L = .ok (d', f', m') →
      dictLookup f' col = dictLookup f col ∧ m'.getCol? col = m.getCol? col := by
  intro L
  induction L with
  | nil =>
    intro d f m d' f' m' _ h
    rw [List.foldlM_nil] at h
    have h2 : (Except.ok (d, f, m) : Except PyError _) = .ok (d', f', m') := h
    injection h2 with h2
    rw [Prod.mk.injEq, Prod.mk.injEq] at h2
    obtain ⟨-, h3, h4⟩ := h2
    rw [← h3, ← h4]
    exact ⟨rfl, rfl⟩
  | cons e rest ih =>
    intro d f m d' f' m' hnot h
    obtain ⟨a1, he, hrest⟩ := foldlM_cons_ok h
    obtain ⟨d1, f1, m1⟩ := a1
    simp only [List.map_cons, List.mem_cons] at hnot
    push_neg at hnot
    obtain ⟨hne, hnot2⟩ := hnot
    obtain ⟨c, checks⟩ := e
    have hp := finalStep_ne_ok ids to_nan d f m d1 f1 m1 c checks col
      (fun e' => hne e'.symm) he
    have hq := ih d1 f1 m1 d' f' m' hnot2 hrest
    exact ⟨hq.1.trans hp.1, hq.2.trans hp.2⟩

theorem final_fold_id (ids : List String) (to_nan : List (Value × Value))
    (col : String) (hcol : col ∈ ids) :
    ∀ (L : Dtypes) (d : Dtypes) (f : List (String × String)) (m : Table)
      (d' : Dtypes) (f' : List (String × String)) (m' : Table),
      List.foldlM (finalStep ids to_nan) (d, f, m) L = .ok (d', f', m') →
      ((∃ checks, (col, checks) ∈ L) ∨ dictLookup f col = some "O") →
      dictLookup f' col = some "O" := by
  intro L
  induction L with
  | nil =>
    intro d f m d' f' m' h hdisj
    rw [List.foldlM_nil] at h
    have h2 : (Except.ok (d, f, m) : Except PyError _) = .ok (d', f', m') := h
    injection h2 with h2
    rw [Prod.mk.injEq, Prod.mk.injEq] at h2
    obtain ⟨-, h3, -⟩ := h2
    cases hdisj with
    | inl hex => obtain ⟨checks, hmem⟩ := hex; simp at hmem
    | inr hO => rw [← h3]; exact hO
  | cons e rest ih =>
    intro d f m d' f' m' h hdisj
    obtain ⟨a1, he, hrest⟩ := foldlM_cons_ok h
    obtain ⟨d1, f1, m1⟩ := a1
    obtain ⟨c, checks⟩ := e
    by_cases hc : c = col
    · subst hc
      rw [finalStep_id ids to_nan d f m c checks hcol] at he
      injection he with he
      rw [Prod.mk.injEq, Prod.mk.injEq] at he
      obtain ⟨-, hf1, -⟩ := he
      exact ih d1 f1 m1 d' f' m' hrest
        (Or.inr (by rw [← hf1]; exact dictLookup_dictSet_self f c "O"))
    · have hp := finalStep_ne_ok ids to_nan d f m d1 f1 m1 c checks col hc he
      cases hdisj with
      | inl hex =>
        obtain ⟨ch2, hmem⟩ := hex
        cases List.mem_cons.mp hmem with
        | inl heq => exact absurd (congrArg Prod.fst heq).symm hc
        | inr hmem2 => exact ih d1 f1 m1 d' f' m' hrest (Or.inl ⟨ch2, hmem2⟩)
      | inr hO => exact ih d1 f1 m1 d' f' m' hrest (Or.inr (hp.1.trans hO))

/-- C5: identifier columns bypass the scanner's value loop — they get
the tag list `[native, 'object']` and contribute nothing to the
candidate-unknowns map or the diagnostic set — and the Finalizer maps
every identifier column appearing in `dtypes` to `'O'`. -/
theorem C5_identifier_columns :
    (∀ (rex : String → Bool) (ids : List String) (acc : ScanAcc) (col : String)
      (vals : List Value), col ∈ ids →
      scanColumn rex ids acc col vals =
        .ok ⟨dictAppend (dictSet acc.dtypes col [nativeDtype vals]) col "object",
             acc.potential_unks, acc.nan_diversity⟩ ∧
      dictLookup (dictAppend (dictSet acc.dtypes col [nativeDtype vals]) col
          "object") col = some [nativeDtype vals, "object"]) ∧
    (∀ (dtypes : Dtypes) (md : Table) (sic : Option (List String))
      (to_nan : List (Value × Value)) (dfin : List (String × String))
      (md' : Table) (col : String) (checks : List String),
      get_dtypes_final dtypes md sic to_nan = .ok (dfin, md') →
      (col, checks) ∈ dtypes → col ∈ effectiveIDs sic →
      dictLookup dfin col = some "O") := by
  constructor
  · intro rex ids acc col vals h
    constructor
    · unfold scanColumn
      rw [if_pos h]
    · rw [dictLookup_dictAppend_self, dictLookup_dictSet_self]
      rfl
  · intro dtypes md sic to_nan dfin md' col checks hok hmem hid
    unfold get_dtypes_final at hok
    obtain ⟨r, hfold, hproj⟩ := (exceptBind_ok_iff _ _ _).mp hok
    obtain ⟨rd, rf, rm⟩ := r
    have hproj2 : (Except.ok (rf, rm) : Except PyError _) = .ok (dfin, md') := hproj
    injection hproj2 with hp2
    rw [Prod.mk.injEq] at hp2
    obtain ⟨hf, -⟩ := hp2
    rw [← hf]
    exact final_fold_id (effectiveIDs sic) to_nan col hid dtypes dtypes [] md
      rd rf rm hfold (Or.inl ⟨checks, hmem⟩)

theorem C5_identifier_columns_witness :
    ("#SampleID" ∈ ["#SampleID"] ∧
      scanColumn (fun _ => false) ["#SampleID"]
          ⟨[], [], ∅⟩ "#SampleID" [] =
        .ok ⟨dictAppend (dictSet (⟨[], [], ∅⟩ : ScanAcc).dtypes "#SampleID"
               [nativeDtype []]) "#SampleID" "object",
             (⟨[], [], ∅⟩ : ScanAcc).potential_unks,
             (⟨[], [], ∅⟩ : ScanAcc).nan_diversity⟩ ∧
      dictLookup (dictAppend (dictSet (⟨[], [], ∅⟩ : ScanAcc).dtypes "#SampleID"
          [nativeDtype []]) "#SampleID" "object") "#SampleID" =
        some [nativeDtype [], "object"]) ∧
    dictLookup [("#SampleID", "O")] "#SampleID" = some "O" :=
  ⟨⟨by decide,
    C5_identifier_columns.1 (fun _ => false) ["#SampleID"] ⟨[], [], ∅⟩
      "#SampleID" [] (by decide)⟩,
   C5_identifier_columns.2 [("#SampleID", ["object", "object"])]
     ⟨[("#SampleID", [Value.vstr "s1"])]⟩ none [] [("#SampleID", "O")]
     ⟨[("#SampleID", [Value.vstr "s1"])]⟩ "#SampleID" ["object", "object"]
     rfl (by decide) (by decide)⟩

/-- C2: a non-identifier column whose preliminary tag is `check` or
`object` has the substitution mapping applied to its column of the
table (`replace({col: to_nan})`), and is finalized `'O'` when some
distinct substituted value other than those printing `'nan'` fails the
float parse, `'Q'` when all such values parse. -/
theorem C2_finalize_check_object
    (dtypes : Dtypes) (md : Table) (sic : Option (List String))
    (to_nan : List (Value × Value)) (dfin : List (String × String)) (md' : Table)
    (col : String) (checks : List String) (vs : List Value)
    (hnd : (dtypes.map Prod.fst).Nodup)
    (hmem : (col, checks) ∈ dtypes)
    (hid : col ∉ effectiveIDs sic)
    (hlast : checks.getLast? = some "check" ∨ checks.getLast? = some "object")
    (hcol : md.getCol? col = some vs)
    (hok : get_dtypes_final dtypes md sic to_nan = .ok (dfin, md')) :
    dictLookup dfin col =
      some (if rescanNonFloat (vs.map (applyMapping to_nan)) then "O" else "Q") ∧
    md'.getCol? col = some (vs.map (applyMapping to_nan)) := by
  obtain ⟨L1, L2, rfl⟩ := List.append_of_mem hmem
  have hkeys := hnd
  rw [List.map_append, List.map_cons, List.nodup_append] at hkeys
  obtain ⟨-, hk2, hdisj⟩ := hkeys
  have hc2 : col ∉ L2.map Prod.fst := (List.nodup_cons.mp hk2).1
  have hc1 : col ∉ L1.map Prod.fst := fun hin => (hdisj hin) (List.mem_cons_self _ _)
  unfold get_dtypes_final at hok
  obtain ⟨r, hfold, hproj⟩ := (exceptBind_ok_iff _ _ _).mp hok
  obtain ⟨rd, rf, rm⟩ := r
  have hproj2 : (Except.ok (rf, rm) : Except PyError _) = .ok (dfin, md') := hproj
  injection hproj2 with hp2
  rw [Prod.mk.injEq] at hp2
  obtain ⟨hf, hm⟩ := hp2
  subst hf
  subst hm
  rw [List.foldlM_append] at hfold
  obtain ⟨a1, hfold1, hrest⟩ := (exceptBind_ok_iff _ _ _).mp hfold
  obtain ⟨d1, f1, m1⟩ := a1
  obtain ⟨a2, hstep, hfold2⟩ := foldlM_cons_ok hrest
  obtain ⟨d2, f2, m2⟩ := a2
  have hpres1 := final_fold_preserve (effectiveIDs sic) to_nan col L1 _ _ _ _ _ _
    hc1 hfold1
  have hm1 : m1.getCol? col = some vs := hpres1.2.trans hcol
  have hlast' : ∃ last, checks.getLast? = some last ∧
      (last = "check" ∨ last = "object") := by
    cases hlast with
    | inl h => exact ⟨"check", h, Or.inl rfl⟩
    | inr h => exact ⟨"object", h, Or.inr rfl⟩
  obtain ⟨last, hl1, hl2⟩ := hlast'
  rw [finalStep_check (effectiveIDs sic) to_nan d1 f1 m1 col checks last vs
    hid hl1 hl2 hm1] at hstep
  injection hstep with hstep
  rw [Prod.mk.injEq, Prod.mk.injEq] at hstep
  obtain ⟨-, hf2, hm2⟩ := hstep
  have hpres2 := final_fold_preserve (effectiveIDs sic) to_nan col L2 _ _ _ _ _ _
    hc2 hfold2
  constructor
  · rw [hpres2.1, ← hf2]
    exact dictLookup_dictSet_self f1 col _
  · rw [hpres2.2, ← hm2]
    exact replaceCol_getCol_self m1 col to_nan vs hm1

theorem C2_finalize_check_object_witness :
    (get_dtypes_final [("c", ["object", "check"])]
        ⟨[("c", [Value.vstr "unk", Value.vstr "1.5"])]⟩ none
        [(Value.vstr "unk", Value.vfloat .nan)] =
      .ok ([("c", "Q")], ⟨[("c", [Value.vfloat .nan, Value.vstr "1.5"])]⟩)) ∧
    dictLookup [("c", "Q")] "c" =
      some (if rescanNonFloat ([Value.vstr "unk", Value.vstr "1.5"].map
        (applyMapping [(Value.vstr "unk", Value.vfloat .nan)])) then "O"
        else "Q") ∧
    (⟨[("c", [Value.vfloat .nan, Value.vstr "1.5"])]⟩ : Table).getCol? "c" =
      some ([Value.vstr "unk", Value.vstr "1.5"].map
        (applyMapping [(Value.vstr "unk", Value.vfloat .nan)])) :=
  ⟨rfl,
   C2_finalize_check_object [("c", ["object", "check"])]
     ⟨[("c", [Value.vstr "unk", Value.vstr "1.5"])]⟩ none
     [(Value.vstr "unk", Value.vfloat .nan)] [("c", "Q")]
     ⟨[("c", [Value.vfloat .nan, Value.vstr "1.5"])]⟩ "c" ["object", "check"]
     [Value.vstr "unk", Value.vstr "1.5"]
     (by decide) (by decide) (by decide) (Or.inl (by decide)) rfl rfl⟩

/-! ## Confirmer lemmas -/

theorem insertSorted_perm (x : String × List String) (l : Dtypes) :
    (insertSorted x l).Perm (x :: l) := by
  induction l with
  | nil => exact List.Perm.refl _
  | cons y ys ih =>
    unfold insertSorted
    split
    · exact List.Perm.refl _
    · exact (List.Perm.cons y ih).trans (List.Perm.swap x y ys)

theorem sortedItems_perm (d : Dtypes) : (sortedItems d).Perm d := by
  induction d with
  | nil => exact List.Perm.refl _
  | cons x rest ih =>
    exact (insertSorted_perm x (sortedItems rest)).trans (List.Perm.cons x ih)

theorem getD_map_lt {α β : Type} (g : α → β) (l : List α) (j : Nat)
    (h : j < l.length) (d0 : β) (da : α) :
    (l.map g).getD j d0 = g (l.getD j da) := by
  rw [List.getD_eq_getElem?_getD, List.getElem?_map, List.getElem?_eq_getElem h,
    List.getD_eq_getElem?_getD, List.getElem?_eq_getElem h]
  rfl

theorem sum_map_indicator {α : Type} (p : α → Prop) [DecidablePred p]
    (l : List α) :
    (l.map (fun a => if p a then (1 : Nat) else 0)).sum =
      (l.filter (fun a => decide (p a))).length := by
  induction l with
  | nil => rfl
  | cons a l ih => by_cases h : p a <;> simp [h, ih, Nat.add_comm]

/-- C3: a candidate factor present in the candidate-unknowns map is
retained by `get_certainly_NaNs` exactly when the number of table
columns contained in its contributing-column list strictly exceeds the
threshold (so `thresh` columns do not confirm and `thresh + 1` do). -/
theorem C3_confirmer_strict_threshold (u : Dtypes) (md : Table) (thresh : Nat)
    (f : String) (colsf : List String)
    (hnd : (u.map Prod.fst).Nodup) (hmem : (f, colsf) ∈ u) :
    f ∈ (get_certainly_NaNs u md thresh).cols ↔
      thresh < (md.columns.filter (fun c => c ∈ colsf)).length := by
  have hperm := sortedItems_perm u
  have hnd' : ((sortedItems u).map Prod.fst).Nodup :=
    ((hperm.map Prod.fst).nodup_iff).mpr hnd
  have hmem' : (f, colsf) ∈ sortedItems u := hperm.mem_iff.mpr hmem
  obtain ⟨j0, hj0, hget⟩ := List.getElem_of_mem hmem'
  have hgetD : (sortedItems u).getD j0 ("", []) = (f, colsf) := by
    rw [List.getD_eq_getElem?_getD, List.getElem?_eq_getElem hj0]
    simpa using hget
  have hsum : ∀ j, j < (sortedItems u).length →
      ((md.columns.map (fun col => (sortedItems u).map
          (fun p => if col ∈ p.2 then (1 : Nat) else 0))).map
        (fun r => r.getD j 0)).sum =
      (md.columns.filter
        (fun c => decide (c ∈ ((sortedItems u).getD j ("", [])).2))).length := by
    intro j hj
    rw [List.map_map]
    have heq : ((fun r => r.getD j 0) ∘
        (fun col => (sortedItems u).map
          (fun p => if col ∈ p.2 then (1 : Nat) else 0)))
        = fun col => if col ∈ ((sortedItems u).getD j ("", [])).2 then 1 else 0 := by
      funext col
      exact getD_map_lt _ _ j hj 0 ("", [])
    rw [heq]
    exact sum_map_indicator _ _
  constructor
  · intro hin
    simp only [get_certainly_NaNs] at hin
    rw [List.mem_map] at hin
    obtain ⟨j, hjk, hgj⟩ := hin
    rw [List.mem_filter, List.mem_range] at hjk
    obtain ⟨hjlt, hcond⟩ := hjk
    have hjD : (sortedItems u).getD j ("", []) = (sortedItems u)[j] := by
      rw [List.getD_eq_getElem?_getD, List.getElem?_eq_getElem hjlt]
      rfl
    have h1 : List.get ((sortedItems u).map Prod.fst)
        ⟨j, by simpa using hjlt⟩ = f := by
      rw [List.get_eq_getElem, List.getElem_map]
      rw [hjD] at hgj
      exact hgj
    have h2 : List.get ((sortedItems u).map Prod.fst)
        ⟨j0, by simpa using hj0⟩ = f := by
      rw [List.get_eq_getElem, List.getElem_map, hget]
    have hfin := hnd'.get_inj_iff.mp (h1.trans h2.symm)
    have hj_eq : j = j0 := congrArg Fin.val hfin
    subst hj_eq
    have hc2 := of_decide_eq_true hcond
    rw [hsum j hjlt, hgetD] at hc2
    exact hc2
  · intro hcount
    simp only [get_certainly_NaNs]
    rw [List.mem_map]
    refine ⟨j0, ?_, ?_⟩
    · rw [List.mem_filter, List.mem_range]
      refine ⟨hj0, decide_eq_true ?_⟩
      rw [hsum j0 hj0, hgetD]
      exact hcount
    · rw [hgetD]

theorem C3_confirmer_strict_threshold_witness :
    ((([("miss", ["c1", "c2", "c3"])] : Dtypes).map Prod.fst).Nodup ∧
      ("miss", ["c1", "c2", "c3"]) ∈ ([("miss", ["c1", "c2", "c3"])] : Dtypes)) ∧
    (("miss" ∈ (get_certainly_NaNs [("miss", ["c1", "c2", "c3"])]
        ⟨[("c1", []), ("c2", []), ("c3", []), ("c4", [])]⟩ 2).cols ↔
      2 < ((⟨[("c1", []), ("c2", []), ("c3", []), ("c4", [])]⟩ : Table).columns.filter
        (fun c => c ∈ ["c1", "c2", "c3"])).length) ∧
     ("miss" ∈ (get_certainly_NaNs [("miss", ["c1", "c2", "c3"])]
        ⟨[("c1", []), ("c2", []), ("c3", []), ("c4", [])]⟩ 3).cols ↔
      3 < ((⟨[("c1", []), ("c2", []), ("c3", []), ("c4", [])]⟩ : Table).columns.filter
        (fun c => c ∈ ["c1", "c2", "c3"])).length)) :=
  ⟨⟨by decide, by decide⟩,
   C3_confirmer_strict_threshold [("miss", ["c1", "c2", "c3"])]
     ⟨[("c1", []), ("c2", []), ("c3", []), ("c4", [])]⟩ 2 "miss"
     ["c1", "c2", "c3"] (by decide) (by decide),
   C3_confirmer_strict_threshold [("miss", ["c1", "c2", "c3"])]
     ⟨[("c1", []), ("c2", []), ("c3", []), ("c4", [])]⟩ 3 "miss"
     ["c1", "c2", "c3"] (by decide) (by decide)⟩

/-! ## Rewriter lemmas -/

theorem exceptMap_ok_iff {ε α β : Type} (m : Except ε α) (g : α → β) (b : β) :
    m.map g = .ok b ↔ ∃ a, m = .ok a ∧ g a = b := by
  cases m <;> simp [Except.map]

theorem astypeFloat_idem : ∀ (vs ws : List Value),
    astypeFloat vs = .ok ws → astypeFloat ws = .ok ws := by
  intro vs
  induction vs with
  | nil =>
    intro ws h
    have h2 : (Except.ok [] : Except PyError (List Value)) = .ok ws := h
    injection h2 with h2
    rw [← h2]
    rfl
  | cons v rest ih =>
    intro ws h
    unfold astypeFloat at h
    cases hf : pyFloatOf v with
    | none => rw [hf] at h; exact Except.noConfusion h
    | some f =>
      rw [hf] at h
      obtain ⟨ws', hws', hcons⟩ := (exceptMap_ok_iff _ _ _).mp h
      rw [← hcons]
      show astypeFloat (Value.vfloat f :: ws') = .ok (Value.vfloat f :: ws')
      unfold astypeFloat
      rw [show pyFloatOf (Value.vfloat f) = some f from rfl, ih ws' hws']
      rfl

theorem astypeStr_idem (vs : List Value) :
    astypeStr (astypeStr vs) = astypeStr vs := by
  induction vs with
  | nil => rfl
  | cons v rest ih =>
    show Value.vstr (pyStr (Value.vstr (pyStr v))) :: astypeStr (astypeStr rest)
      = Value.vstr (pyStr v) :: astypeStr rest
    rw [ih]
    rfl

theorem dictSet_lookup_self (d : List (String × α)) (k : String) (v : α)
    (h : dictLookup d k = some v) : dictSet d k v = d := by
  induction d with
  | nil => simp [dictLookup] at h
  | cons p rest ih =>
    by_cases hp : p.1 = k
    · simp only [dictLookup, hp, if_true] at h
      injection h with h
      unfold dictSet
      rw [if_pos hp, ← hp, ← h]
    · simp only [dictLookup, hp, if_false] at h
      unfold dictSet
      rw [if_neg hp, ih h]

theorem setCol_self (t : Table) (c : String) (vs : List Value)
    (h : t.getCol? c = some vs) : t.setCol c vs = t := by
  cases t with
  | mk l =>
    show Table.mk (dictSet l c vs) = Table.mk l
    rw [dictSet_lookup_self l c vs h]

theorem rectifyStep_ok (t : Table) (c d : String) (t1 : Table)
    (h : rectifyStep t (c, d) = .ok t1) :
    ∃ vs ws, t.getCol? c = some vs ∧ t1 = t.setCol c ws ∧
      ((d = "Q" ∧ astypeFloat vs = .ok ws) ∨ (d ≠ "Q" ∧ ws = astypeStr vs)) := by
  rw [rectifyStep_eq] at h
  cases hg : t.getCol? c with
  | none =>
    rw [hg] at h
    exact Except.noConfusion h
  | some vs =>
    simp only [hg] at h
    by_cases hd : d = "Q"
    · rw [if_pos hd] at h
      obtain ⟨ws, hws, hset⟩ := (exceptMap_ok_iff _ _ _).mp h
      exact ⟨vs, ws, rfl, hset.symm, Or.inl ⟨hd, hws⟩⟩
    · rw [if_neg hd] at h
      injection h with h
      exact ⟨vs, astypeStr vs, rfl, h.symm, Or.inr ⟨hd, rfl⟩⟩

theorem rectify_getCol_preserve :
    ∀ (L : List (String × String)) (t t' : Table) (c : String),
      c ∉ L.map Prod.fst → rectify_dtypes_in_md L t = .ok t' →
      t'.getCol? c = t.getCol? c := by
  intro L
  induction L with
  | nil =>
    intro t t' c _ h
    have h2 : (Except.ok t : Except PyError Table) = .ok t' := h
    injection h2 with h2
    rw [← h2]
  | cons e rest ih =>
    intro t t' c hnot h
    obtain ⟨c0, d0⟩ := e
    obtain ⟨t1, hstep, hrest⟩ := foldlM_cons_ok h
    obtain ⟨vs, ws, hg, ht1, -⟩ := rectifyStep_ok t c0 d0 t1 hstep
    simp only [List.map_cons, List.mem_cons] at hnot
    push_neg at hnot
    have h1 : t1.getCol? c = t.getCol? c := by
      rw [ht1]
      exact dictLookup_dictSet_ne t.cols c0 c ws hnot.1
    exact (ih t1 t' c hnot.2 hrest).trans h1

/-- C8: the Rewriter is idempotent — whenever `rectify_dtypes_in_md`
succeeds, running it again on the produced table returns that same
table (the finalized-type map is a Python dict, so its keys are
distinct). -/
theorem C8_rewriter_idempotent :
    ∀ (m : List (String × String)) (t t' : Table),
      (m.map Prod.fst).Nodup → rectify_dtypes_in_md m t = .ok t' →
      rectify_dtypes_in_md m t' = .ok t' := by
  intro m
  induction m with
  | nil =>
    intro t t' _ h
    have h2 : (Except.ok t : Except PyError Table) = .ok t' := h
    injection h2 with h2
    subst h2
    rfl
  | cons e rest ih =>
    intro t t' hnd e_h
    obtain ⟨c, d⟩ := e
    obtain ⟨t1, hstep, hrest⟩ := foldlM_cons_ok e_h
    obtain ⟨vs, ws, hg, ht1, hco⟩ := rectifyStep_ok t c d t1 hstep
    simp only [List.map_cons] at hnd
    have hnd2 := List.nodup_cons.mp hnd
    have ht1c : t1.getCol? c = some ws := by
      rw [ht1]
      exact dictLookup_dictSet_self t.cols c ws
    have ht'c : t'.getCol? c = some ws :=
      (rectify_getCol_preserve rest t1 t' c hnd2.1 hrest).trans ht1c
    have hrest' : rectify_dtypes_in_md rest t' = .ok t' :=
      ih t1 t' hnd2.2 hrest
    have hstep' : rectifyStep t' (c, d) = .ok t' := by
      rw [rectifyStep_eq]
      simp only [ht'c]
      cases hco with
      | inl hQ =>
        obtain ⟨hd, hf⟩ := hQ
        rw [if_pos hd, astypeFloat_idem vs ws hf]
        show Except.ok (t'.setCol c ws) = .ok t'
        rw [setCol_self t' c ws ht'c]
      | inr hO =>
        obtain ⟨hd, hw⟩ := hO
        rw [if_neg hd]
        have hws : astypeStr ws = ws := by
          rw [hw]
          exact astypeStr_idem vs
        rw [hws, setCol_self t' c ws ht'c]
    show List.foldlM rectifyStep t' ((c, d) :: rest) = .ok t'
    rw [List.foldlM_cons, hstep']
    exact hrest'

theorem C8_rewriter_idempotent_witness :
    ((([("a", "Q"), ("b", "O")] : List (String × String)).map Prod.fst).Nodup ∧
      rectify_dtypes_in_md [("a", "Q"), ("b", "O")]
          ⟨[("a", [Value.vfloat (.fin 2), Value.vfloat .nan]),
            ("b", [Value.vstr "x", Value.vfloat .nan])]⟩ =
        .ok ⟨[("a", [Value.vfloat (.fin 2), Value.vfloat .nan]),
              ("b", [Value.vstr "x", Value.vstr "nan"])]⟩) ∧
    rectify_dtypes_in_md [("a", "Q"), ("b", "O")]
        ⟨[("a", [Value.vfloat (.fin 2), Value.vfloat .nan]),
          ("b", [Value.vstr "x", Value.vstr "nan"])]⟩ =
      .ok ⟨[("a", [Value.vfloat (.fin 2), Value.vfloat .nan]),
            ("b", [Value.vstr "x", Value.vstr "nan"])]⟩ :=
  ⟨⟨by decide, rfl⟩,
   C8_rewriter_idempotent [("a", "Q"), ("b", "O")]
     ⟨[("a", [Value.vfloat (.fin 2), Value.vfloat .nan]),
       ("b", [Value.vstr "x", Value.vfloat .nan])]⟩
     ⟨[("a", [Value.vfloat (.fin 2), Value.vfloat .nan]),
       ("b", [Value.vstr "x", Value.vstr "nan"])]⟩
     (by decide) rfl⟩

end MetadataCleaning
